import Mathlib

/-!
Shallow embedding of the fitsrs FITS decoder (`src/lib.rs`).

Conventions of the embedding:
* byte buffers are `List Nat` (each entry a byte value `< 256`);
* Rust `usize` arithmetic is `Nat` reduced modulo `USIZE = 2 ^ 64` exactly at
  the multiplications the source performs (`total *= val` in the axis-size
  fold, `num_items * num_bytes_per_item` in `DataUnit::parse`), which wrap in
  release builds;
* fallible code returns `Except Error _`; a Rust panic (the `unwrap` in the
  axis-size fold, the exact-length requirement of the `byteorder`
  `read_*_into` functions) is modelled by `none` in an outer `Option`;
* 32/64-bit floats are represented by their IEEE-754 bit patterns (`Nat`),
  since the decoder only reinterprets big-endian bytes and never computes
  with the float values.

The files `primary_header.rs`, `error.rs` and `card_value.rs` are declared by
`lib.rs` (`mod primary_header;` …) but are not part of the sources available
here; the corresponding definitions below are modelled from the spec and say
so in their doc comments.
-/

deriving instance DecidableEq for Except

set_option maxRecDepth 100000

namespace Fitsrs

/-- The modulus of Rust `usize` arithmetic (64-bit target). -/
def USIZE : Nat := 2 ^ 64

/-- The six recognized numeric type codes (`BitpixValue` in the source). -/
inductive BitpixValue
  | U8
  | I16
  | I32
  | I64
  | F32
  | F64
deriving DecidableEq

/-- `std::mem::size_of::<Self::Item>()` for each data-unit item type. -/
def BitpixValue.width : BitpixValue → Nat
  | .U8 => 1
  | .I16 => 2
  | .I32 => 4
  | .I64 => 8
  | .F32 => 4
  | .F64 => 8

/-- Modelled from the spec: the error taxonomy of `error.rs` (not under
`src/`).  `Incomplete` is the incomplete-input signal (nom's streaming
`take` on a too-short buffer), distinct from the malformed-data signals.
`ArithmeticOverflow` is listed by the spec's error taxonomy; the embedding
shows the code never produces it. -/
inductive Error
  | Incomplete
  | MalformedCard
  | OrderingViolation
  | MissingMandatoryCard
  | UnsupportedTypeCode
  | ArithmeticOverflow
deriving DecidableEq

/-- Modelled from the spec: the card variants of `primary_header.rs` (not
under `src/`): presence marker, type code, axis count, per-axis size (1-based
axis index), end-of-header marker, and uninterpreted cards retained with
their keyword bytes. -/
inductive FITSHeaderKeyword
  | Simple
  | Bitpix (v : BitpixValue)
  | Naxis (n : Nat)
  | NaxisSize (idx : Nat) (size : Nat)
  | End
  | Other (kw : List Nat)
deriving DecidableEq

/-- Whether a card is an uninterpreted (opaque) card. -/
def FITSHeaderKeyword.isOther : FITSHeaderKeyword → Bool
  | .Other _ => true
  | _ => false

/-- Modelled from the spec: an assembled primary header: the ordered card
sequence plus the derived mandatory fields. `sizes` collects the per-axis
size cards as (1-based axis index, size) pairs in arrival order. -/
structure PrimaryHeader where
  cards : List FITSHeaderKeyword
  bitpix : BitpixValue
  naxis : Nat
  sizes : List (Nat × Nat)
deriving DecidableEq

def PrimaryHeader.get_naxis (h : PrimaryHeader) : Nat := h.naxis

def PrimaryHeader.get_bitpix (h : PrimaryHeader) : BitpixValue := h.bitpix

/-- Modelled from the spec: the per-axis-size accessor of
`primary_header.rs` (not under `src/`).  Axes are 1-based in the format; the
accessor's parameter is 0-based (axis `idx + 1`), as required by the caller
loop `(0..header.get_naxis()).map(|idx| header.get_axis_size(idx).unwrap())`
in `lib.rs` and by the repository tests, which parse NAXIS = 2 files
successfully. -/
def PrimaryHeader.get_axis_size (h : PrimaryHeader) (idx : Nat) : Option Nat :=
  (h.sizes.find? (fun p => p.1 = idx + 1)).map Prod.snd

/-! ### Card tokenizer (modelled from the spec, `primary_header.rs` missing) -/

def strBytes (s : String) : List Nat := s.toList.map Char.toNat

/-- ASCII decimal digit. -/
def isDigit (b : Nat) : Bool := 48 ≤ b && b ≤ 57

/-- ASCII space. -/
def isSpace (b : Nat) : Bool := b = 32

def digitsToNat (l : List Nat) : Nat := l.foldl (fun a b => a * 10 + (b - 48)) 0

/-- Parse a non-empty run of leading decimal digits as a `Nat`. -/
def parseNat (l : List Nat) : Option Nat :=
  let ds := l.takeWhile isDigit
  if ds.isEmpty then none else some (digitsToNat ds)

/-- Parse an optionally `-`-signed decimal integer after leading spaces. -/
def parseInt (l : List Nat) : Option Int :=
  match l.dropWhile isSpace with
  | 45 :: rest => (parseNat rest).map (fun n => -(n : Int))
  | other => (parseNat other).map (fun n => (n : Int))

/-- Map a BITPIX integer code to a type code (the closed set
{8, 16, 32, 64, -32, -64}); anything else is an unsupported type code. -/
def bitpixOfCode (i : Int) : Except Error BitpixValue :=
  if i = 8 then .ok .U8
  else if i = 16 then .ok .I16
  else if i = 32 then .ok .I32
  else if i = 64 then .ok .I64
  else if i = -32 then .ok .F32
  else if i = -64 then .ok .F64
  else .error .UnsupportedTypeCode

def trimTrailingSpaces (l : List Nat) : List Nat :=
  (l.reverse.dropWhile isSpace).reverse

/-- The leading bytes of the axis-size keywords (`NAXIS` + digits). -/
def naxisKw : List Nat := strBytes (r"NAXIS")

/-- Check the fixed `= ` value indicator at bytes 8..9 of a record and
return the value region (bytes 10..80). -/
def valueRegion (record : List Nat) : Except Error (List Nat) :=
  if (record.drop 8).take 2 = [61, 32] then .ok (record.drop 10)
  else .error .MalformedCard

/-- Parse a `usize` value (a non-negative integer below `2 ^ 64`) from a
record's value region; a negative or out-of-range value is a malformed
card. -/
def parseUsizeValue (record : List Nat) : Except Error Nat :=
  match valueRegion record with
  | .error e => .error e
  | .ok region =>
    match parseInt region with
    | none => .error .MalformedCard
    | some i =>
      if i < 0 then .error .MalformedCard
      else if (USIZE : Int) ≤ i then .error .MalformedCard
      else .ok i.toNat

/-- Modelled from the spec: the card tokenizer of `primary_header.rs` (not
under `src/`).  Splits one 80-byte record into keyword (first 8 bytes,
trailing spaces trimmed) and value region, and recognizes the mandatory
keywords; every other keyword yields an uninterpreted card. -/
def tokenizeRecord (record : List Nat) : Except Error FITSHeaderKeyword :=
  let kw := trimTrailingSpaces (record.take 8)
  if kw = strBytes (r"SIMPLE") then .ok .Simple
  else if kw = strBytes (r"END") then .ok .End
  else if kw = strBytes (r"BITPIX") then
    match valueRegion record with
    | .error e => .error e
    | .ok region =>
      match parseInt region with
      | none => .error .MalformedCard
      | some i => (bitpixOfCode i).map (fun v => .Bitpix v)
  else if kw = naxisKw then
    (parseUsizeValue record).map (fun n => .Naxis n)
  else if kw.take 5 = naxisKw ∧ 5 < kw.length ∧ (kw.drop 5).all isDigit then
    (parseUsizeValue record).map (fun s => .NaxisSize (digitsToNat (kw.drop 5)) s)
  else .ok (.Other kw)

/-! ### Header assembler (modelled from the spec, `primary_header.rs` missing) -/

/-- Modelled from the spec: the state of the validating header state
machine: the cards accumulated so far (most recent first) and the mandatory
fields seen so far. -/
structure AsmState where
  cards : List FITSHeaderKeyword
  simple : Bool
  bitpix : Option BitpixValue
  naxis : Option Nat
  sizes : List (Nat × Nat)
deriving DecidableEq

def initState : AsmState :=
  { cards := [], simple := false, bitpix := none, naxis := none, sizes := [] }

def AsmState.push (st : AsmState) (c : FITSHeaderKeyword) : AsmState :=
  { st with cards := c :: st.cards }

/-- All axis indices `1..n` have a collected size card. -/
def axesComplete (n : Nat) (sizes : List (Nat × Nat)) : Bool :=
  (List.range' 1 n).all (fun i => (sizes.find? (fun p => p.1 = i)).isSome)

/-- Modelled from the spec: one transition of the header state machine.
The presence marker must precede the type-code and axis-count cards; the
axis count must precede any axis-size card; axis-size indices must be
distinct and in `1..n`; the end marker checks that every mandatory card has
been seen and emits the header; unrecognized cards are retained and
skipped. -/
def stepCard (st : AsmState) (c : FITSHeaderKeyword) :
    Except Error (AsmState ⊕ PrimaryHeader) :=
  match c with
  | .Simple => .ok (.inl { st.push c with simple := true })
  | .Bitpix v =>
    if st.simple = false then .error .OrderingViolation
    else if st.bitpix.isSome then .error .OrderingViolation
    else .ok (.inl { st.push c with bitpix := some v })
  | .Naxis n =>
    if st.simple = false then .error .OrderingViolation
    else if st.naxis.isSome then .error .OrderingViolation
    else .ok (.inl { st.push c with naxis := some n })
  | .NaxisSize idx size =>
    match st.naxis with
    | none => .error .OrderingViolation
    | some n =>
      if idx < 1 ∨ n < idx then .error .OrderingViolation
      else if (st.sizes.find? (fun p => p.1 = idx)).isSome then .error .OrderingViolation
      else .ok (.inl { st.push c with sizes := st.sizes ++ [(idx, size)] })
  | .End =>
    match st.bitpix, st.naxis with
    | some b, some n =>
      if st.simple = true ∧ axesComplete n st.sizes = true then
        .ok (.inr { cards := st.cards.reverse, bitpix := b, naxis := n, sizes := st.sizes })
      else .error .MissingMandatoryCard
    | _, _ => .error .MissingMandatoryCard
  | .Other _ => .ok (.inl (st.push c))

/-- Modelled from the spec: the assembler run over an already-tokenized card
sequence; reaching the end of the sequence without the end-of-header marker
is an incomplete input. -/
def assembleCards (st : AsmState) : List FITSHeaderKeyword → Except Error PrimaryHeader
  | [] => .error .Incomplete
  | c :: cs =>
    match stepCard st c with
    | .error e => .error e
    | .ok (.inr h) => .ok h
    | .ok (.inl st') => assembleCards st' cs

/-- Modelled from the spec: the byte-level assembler loop of
`PrimaryHeader::new`: read 80-byte records (incomplete input if fewer than
80 bytes remain), tokenize, step the state machine; on the end-of-header
marker skip the padding that rounds the consumed length up to a multiple of
2880 bytes and return the remaining buffer (the start of the data block)
with the header.  `fuel` bounds the recursion; the entry point passes the
buffer length, which each 80-byte step strictly exceeds. -/
def assembleBytes : Nat → AsmState → Nat → List Nat →
    Except Error (List Nat × PrimaryHeader)
  | 0, _, _, _ => .error .Incomplete
  | fuel + 1, st, pos, buf =>
    if buf.length < 80 then .error .Incomplete
    else
      match tokenizeRecord (buf.take 80) with
      | .error e => .error e
      | .ok c =>
        match stepCard st c with
        | .error e => .error e
        | .ok (.inr h) =>
          let pad := (2880 - (pos + 80) % 2880) % 2880
          let rest := buf.drop 80
          if rest.length < pad then .error .Incomplete
          else .ok (rest.drop pad, h)
        | .ok (.inl st') => assembleBytes fuel st' (pos + 80) (buf.drop 80)

/-- Modelled from the spec: `PrimaryHeader::new` (in `primary_header.rs`,
not under `src/`): assemble and validate the header from the front of the
buffer and return the remaining buffer positioned at the data block,
together with the header. -/
def PrimaryHeader.new (buf : List Nat) : Except Error (List Nat × PrimaryHeader) :=
  assembleBytes buf.length initState 0 buf

/-! ### Data unit decoding (`lib.rs` lines 18-98) -/

/-- nom's byte-oriented streaming `take`: an input shorter than the
requested count is an incomplete input; otherwise return (rest, taken). -/
def takeStreaming (n : Nat) (buf : List Nat) : Except Error (List Nat × List Nat) :=
  if buf.length < n then .error .Incomplete else .ok (buf.drop n, buf.take n)

/-- The default body of `DataUnit::parse`: `num_bytes = num_items *
size_of::<Item>()` (usize multiplication, wrapping), streaming-take that
many bytes, discard the rest (`let (_, raw_bytes) = ...`). -/
def parseRaw (w : Nat) (buf : List Nat) (num_items : Nat) : Except Error (List Nat) :=
  match takeStreaming ((num_items * w) % USIZE) buf with
  | .error e => .error e
  | .ok (_, raw_bytes) => .ok raw_bytes

/-- Big-endian value of one chunk of bytes. -/
def beValue (chunk : List Nat) : Nat := chunk.foldl (fun a b => a * 256 + b) 0

/-- Big-endian values of `n` consecutive `w`-byte chunks. -/
def readChunks (w : Nat) : Nat → List Nat → List Nat
  | 0, _ => []
  | n + 1, src => beValue (src.take w) :: readChunks w n (src.drop w)

/-- `byteorder`'s `BigEndian::read_*_into(src, dst)` with `dst.len() = n`:
panics (modelled as `none`) unless `src.len() = n * w`; otherwise fills
`dst` with the big-endian value of each `w`-byte chunk in order. -/
def readBEInto (w n : Nat) (src : List Nat) : Option (List Nat) :=
  if src.length = n * w then some (readChunks w n src) else none

/-- Two's-complement reading of a `w`-byte unsigned value. -/
def toSigned (w : Nat) (v : Nat) : Int :=
  if v < 2 ^ (8 * w - 1) then (v : Int) else (v : Int) - 2 ^ (8 * w)

/-- `DataUnitU8::parse`: take the raw bytes and expose them directly
(zero-copy; `DataUnitU8(raw_bytes)`). -/
def DataUnitU8.parse (buf : List Nat) (num_items : Nat) :
    Option (Except Error (List Nat)) :=
  match parseRaw 1 buf num_items with
  | .error e => some (.error e)
  | .ok raw_bytes => some (.ok raw_bytes)

/-- `DataUnitI16::parse`: 2-byte big-endian signed values via
`read_i16_into` (panic modelled as `none`). -/
def DataUnitI16.parse (buf : List Nat) (num_items : Nat) :
    Option (Except Error (List Int)) :=
  match parseRaw 2 buf num_items with
  | .error e => some (.error e)
  | .ok raw_bytes =>
    match readBEInto 2 num_items raw_bytes with
    | none => none
    | some vs => some (.ok (vs.map (toSigned 2)))

/-- `DataUnitI32::parse`: 4-byte big-endian signed values via
`read_i32_into`. -/
def DataUnitI32.parse (buf : List Nat) (num_items : Nat) :
    Option (Except Error (List Int)) :=
  match parseRaw 4 buf num_items with
  | .error e => some (.error e)
  | .ok raw_bytes =>
    match readBEInto 4 num_items raw_bytes with
    | none => none
    | some vs => some (.ok (vs.map (toSigned 4)))

/-- `DataUnitI64::parse`: 8-byte big-endian signed values via
`read_i64_into`. -/
def DataUnitI64.parse (buf : List Nat) (num_items : Nat) :
    Option (Except Error (List Int)) :=
  match parseRaw 8 buf num_items with
  | .error e => some (.error e)
  | .ok raw_bytes =>
    match readBEInto 8 num_items raw_bytes with
    | none => none
    | some vs => some (.ok (vs.map (toSigned 8)))

/-- `DataUnitF32::parse`: 4-byte big-endian floats via `read_f32_into`,
represented by their IEEE-754 bit patterns. -/
def DataUnitF32.parse (buf : List Nat) (num_items : Nat) :
    Option (Except Error (List Nat)) :=
  match parseRaw 4 buf num_items with
  | .error e => some (.error e)
  | .ok raw_bytes =>
    match readBEInto 4 num_items raw_bytes with
    | none => none
    | some vs => some (.ok vs)

/-- `DataUnitF64::parse`: 8-byte big-endian floats via `read_f64_into`,
represented by their IEEE-754 bit patterns. -/
def DataUnitF64.parse (buf : List Nat) (num_items : Nat) :
    Option (Except Error (List Nat)) :=
  match parseRaw 8 buf num_items with
  | .error e => some (.error e)
  | .ok raw_bytes =>
    match readBEInto 8 num_items raw_bytes with
    | none => none
    | some vs => some (.ok vs)

/-- The `DataType` enum of `lib.rs`: floats carried as bit patterns. -/
inductive DataType
  | U8 (d : List Nat)
  | I16 (d : List Int)
  | I32 (d : List Int)
  | I64 (d : List Int)
  | F32 (d : List Nat)
  | F64 (d : List Nat)
deriving DecidableEq

/-- The `Fits` result struct of `lib.rs`. -/
structure Fits where
  header : PrimaryHeader
  data : DataType
deriving DecidableEq

/-- The fold of `lib.rs` lines 107-112:
`(0..naxis).map(|idx| get_axis_size(idx).unwrap()).fold(1, |t, v| t * v)`.
Each `total *= val` is a wrapping usize multiplication; the `unwrap` panic
on a missing axis size is modelled by `none`. -/
def numItemsOpt (h : PrimaryHeader) : Option Nat :=
  ((List.range h.get_naxis).mapM h.get_axis_size).map
    (fun sizes => sizes.foldl (fun total val => (total * val) % USIZE) 1)

/-- nom's complete `multispace0`: consumes any leading space, tab, CR, LF
bytes and never fails. -/
def multispace0 (buf : List Nat) : Except Error (List Nat × List Nat) :=
  .ok (buf.dropWhile (fun b => b = 32 || b = 9 || b = 10 || b = 13), buf.takeWhile (fun b => b = 32 || b = 9 || b = 10 || b = 13))

/-- The six-way dispatch of `lib.rs` lines 117-124 (`match
header.get_bitpix()`), reading the data stream in big-endian order;
`none` models a panic inside a `DataUnit::parse`. -/
def dispatchData (header : PrimaryHeader) (buf : List Nat) (num_items : Nat) :
    Option (Except Error Fits) :=
  match header.get_bitpix with
  | .U8 =>
    match DataUnitU8.parse buf num_items with
    | none => none
    | some (.error e) => some (.error e)
    | some (.ok d) => some (.ok { header := header, data := .U8 d })
  | .I16 =>
    match DataUnitI16.parse buf num_items with
    | none => none
    | some (.error e) => some (.error e)
    | some (.ok d) => some (.ok { header := header, data := .I16 d })
  | .I32 =>
    match DataUnitI32.parse buf num_items with
    | none => none
    | some (.error e) => some (.error e)
    | some (.ok d) => some (.ok { header := header, data := .I32 d })
  | .I64 =>
    match DataUnitI64.parse buf num_items with
    | none => none
    | some (.error e) => some (.error e)
    | some (.ok d) => some (.ok { header := header, data := .I64 d })
  | .F32 =>
    match DataUnitF32.parse buf num_items with
    | none => none
    | some (.error e) => some (.error e)
    | some (.ok d) => some (.ok { header := header, data := .F32 d })
  | .F64 =>
    match DataUnitF64.parse buf num_items with
    | none => none
    | some (.error e) => some (.error e)
    | some (.ok d) => some (.ok { header := header, data := .F64 d })

/-- `Fits::from_bytes_slice` (`lib.rs` lines 103-127): run
`PrimaryHeader::new`, fold the axis sizes into `num_items`, call
`multispace0(buf)?` WITHOUT rebinding `buf` (line 114 discards the advanced
buffer, so the data unit is parsed from the buffer positioned immediately
after the header block), then dispatch on the type code.  `none` models a
panic. -/
def Fits.from_bytes_slice (buf : List Nat) : Option (Except Error Fits) :=
  match PrimaryHeader.new buf with
  | .error e => some (.error e)
  | .ok (buf, header) =>
    match numItemsOpt header with
    | none => none
    | some num_items =>
      match multispace0 buf with
      | .error e => some (.error e)
      | .ok _ => dispatchData header buf num_items

/-- The spec's reading of the orchestration (differs from the code at one
point): "skip any whitespace/padding between header block and data block"
before dispatching, i.e. `multispace0`'s advanced buffer IS used.  This
definition exists only to be compared with `Fits.from_bytes_slice`. -/
def fromBytesSliceSpecSkip (buf : List Nat) : Option (Except Error Fits) :=
  match PrimaryHeader.new buf with
  | .error e => some (.error e)
  | .ok (buf0, header) =>
    match numItemsOpt header with
    | none => none
    | some num_items =>
      match multispace0 buf0 with
      | .error e => some (.error e)
      | .ok (buf, _) => dispatchData header buf num_items

/-! ### Concrete buffers for witnesses and counterexamples -/

/-! ### Concrete buffers for witnesses and counterexamples -/

/-- Pad a header line to one 80-byte record with spaces. -/
def mkRecord (s : String) : List Nat := strBytes s ++ List.replicate (80 - s.length) 32

def recSimple : List Nat := mkRecord (r"SIMPLE  = T")

def recBitpix8 : List Nat := mkRecord (r"BITPIX  = 8")

def recNaxisIs1 : List Nat := mkRecord (r"NAXIS   = 1")

def recNaxis1Is3 : List Nat := mkRecord (r"NAXIS1  = 3")

def recEnd : List Nat := mkRecord (r"END")

/-- Padding of a 5-record header block up to 2880 bytes. -/
def pad2480 : List Nat := List.replicate 2480 32

/-- A well-formed buffer: U8 data, NAXIS = 1, NAXIS1 = 3, 3 data bytes. -/
def bufOk : List Nat :=
  recSimple ++ (recBitpix8 ++ (recNaxisIs1 ++ (recNaxis1Is3 ++ (recEnd ++
    (pad2480 ++ [10, 20, 30])))))

/-- The header assembled from `bufOk`. -/
def hdrOk : PrimaryHeader :=
  { cards := [.Simple, .Bitpix .U8, .Naxis 1, .NaxisSize 1 3],
    bitpix := .U8, naxis := 1, sizes := [(1, 3)] }

/-- Assembler state after SIMPLE. -/
def stA : AsmState :=
  { cards := [.Simple], simple := true, bitpix := none, naxis := none, sizes := [] }

/-- Assembler state after SIMPLE, BITPIX = 8. -/
def stB : AsmState :=
  { cards := [.Bitpix .U8, .Simple], simple := true, bitpix := some .U8,
    naxis := none, sizes := [] }

/-- Assembler state after SIMPLE, BITPIX = 8, NAXIS = 1. -/
def stC : AsmState :=
  { cards := [.Naxis 1, .Bitpix .U8, .Simple], simple := true, bitpix := some .U8,
    naxis := some 1, sizes := [] }

/-- Assembler state after SIMPLE, BITPIX = 8, NAXIS = 1, NAXIS1 = 3. -/
def stD : AsmState :=
  { cards := [.NaxisSize 1 3, .Naxis 1, .Bitpix .U8, .Simple], simple := true,
    bitpix := some .U8, naxis := some 1, sizes := [(1, 3)] }

/-! #### A buffer whose axis-size product overflows usize -/

def recNaxisIs2 : List Nat := mkRecord (r"NAXIS   = 2")

def recNaxis1Big : List Nat := mkRecord (r"NAXIS1  = 4294967296")

def recNaxis2Big : List Nat := mkRecord (r"NAXIS2  = 4294967296")

/-- Padding of a 6-record header block up to 2880 bytes. -/
def pad2400 : List Nat := List.replicate 2400 32

/-- A validly assembled header declaring axis sizes 2^32 x 2^32 (product
2^64, beyond usize), followed by no data bytes at all. -/
def bufOverflow : List Nat :=
  recSimple ++ (recBitpix8 ++ (recNaxisIs2 ++ (recNaxis1Big ++ (recNaxis2Big ++
    (recEnd ++ pad2400)))))

def hdrOverflow : PrimaryHeader :=
  { cards := [.Simple, .Bitpix .U8, .Naxis 2, .NaxisSize 1 4294967296,
      .NaxisSize 2 4294967296],
    bitpix := .U8, naxis := 2, sizes := [(1, 4294967296), (2, 4294967296)] }

/-- Assembler state after SIMPLE, BITPIX = 8, NAXIS = 2. -/
def stC2 : AsmState :=
  { cards := [.Naxis 2, .Bitpix .U8, .Simple], simple := true, bitpix := some .U8,
    naxis := some 2, sizes := [] }

/-- Assembler state after SIMPLE, BITPIX = 8, NAXIS = 2, NAXIS1 = 2^32. -/
def stD2 : AsmState :=
  { cards := [.NaxisSize 1 4294967296, .Naxis 2, .Bitpix .U8, .Simple],
    simple := true, bitpix := some .U8, naxis := some 2, sizes := [(1, 4294967296)] }

/-- Assembler state after SIMPLE, BITPIX = 8, NAXIS = 2, NAXIS1, NAXIS2. -/
def stE2 : AsmState :=
  { cards := [.NaxisSize 2 4294967296, .NaxisSize 1 4294967296, .Naxis 2,
      .Bitpix .U8, .Simple],
    simple := true, bitpix := some .U8, naxis := some 2,
    sizes := [(1, 4294967296), (2, 4294967296)] }

/-! #### A buffer whose data block is a single whitespace byte -/

def recNaxisIs0 : List Nat := mkRecord (r"NAXIS   = 0")

/-- Padding of a 4-record header block up to 2880 bytes. -/
def pad2560 : List Nat := List.replicate 2560 32

/-- A valid scalar (NAXIS = 0, element count 1) U8 file whose single data
byte is an ASCII space (0x20). -/
def bufSpace : List Nat :=
  recSimple ++ (recBitpix8 ++ (recNaxisIs0 ++ (recEnd ++ (pad2560 ++ [32]))))

def hdrSpace : PrimaryHeader :=
  { cards := [.Simple, .Bitpix .U8, .Naxis 0],
    bitpix := .U8, naxis := 0, sizes := [] }

/-- Assembler state after SIMPLE, BITPIX = 8, NAXIS = 0. -/
def stC0 : AsmState :=
  { cards := [.Naxis 0, .Bitpix .U8, .Simple], simple := true, bitpix := some .U8,
    naxis := some 0, sizes := [] }

/-! #### A truncated buffer: valid header, too few data bytes -/

def recNaxis1Is10 : List Nat := mkRecord (r"NAXIS1  = 10")

/-- A valid header demanding 10 U8 data bytes, followed by only 3. -/
def bufTrunc : List Nat :=
  recSimple ++ (recBitpix8 ++ (recNaxisIs1 ++ (recNaxis1Is10 ++ (recEnd ++
    (pad2480 ++ [1, 2, 3])))))

def hdrTrunc : PrimaryHeader :=
  { cards := [.Simple, .Bitpix .U8, .Naxis 1, .NaxisSize 1 10],
    bitpix := .U8, naxis := 1, sizes := [(1, 10)] }

/-- Assembler state after SIMPLE, BITPIX = 8, NAXIS = 1, NAXIS1 = 10. -/
def stD10 : AsmState :=
  { cards := [.NaxisSize 1 10, .Naxis 1, .Bitpix .U8, .Simple], simple := true,
    bitpix := some .U8, naxis := some 1, sizes := [(1, 10)] }

/-! ### Evaluation lemmas for the byte-level assembler and concrete buffers -/

/-! ### Evaluation lemmas for the byte-level assembler

Concrete buffers are kept as appends of 80-byte records so that each record
is evaluated on its own (never a whole multi-thousand-byte list at once). -/

theorem assembleBytes_step (fuel fuel' : Nat) (st st' : AsmState) (pos : Nat)
    (r rest : List Nat) (c : FITSHeaderKeyword)
    (hf : fuel = fuel' + 1) (hr : r.length = 80)
    (hc : tokenizeRecord r = .ok c) (hs : stepCard st c = .ok (.inl st')) :
    assembleBytes fuel st pos (r ++ rest) = assembleBytes fuel' st' (pos + 80) rest := by
  subst hf
  have hnlt : ¬ (r ++ rest).length < 80 := by
    rw [List.length_append, hr]; omega
  simp only [assembleBytes, if_neg hnlt, List.take_left' hr, List.drop_left' hr, hc, hs]

theorem assembleBytes_endStep (fuel fuel' : Nat) (st : AsmState) (pos pad : Nat)
    (r rest : List Nat) (h : PrimaryHeader)
    (hf : fuel = fuel' + 1) (hr : r.length = 80)
    (hc : tokenizeRecord r = .ok .End) (hs : stepCard st .End = .ok (.inr h))
    (hpad : (2880 - (pos + 80) % 2880) % 2880 = pad) (hrest : pad ≤ rest.length) :
    assembleBytes fuel st pos (r ++ rest) = .ok (rest.drop pad, h) := by
  subst hf
  have hnlt : ¬ (r ++ rest).length < 80 := by
    rw [List.length_append, hr]; omega
  have hnlt2 : ¬ rest.length < pad := by omega
  simp only [assembleBytes, if_neg hnlt, List.take_left' hr, List.drop_left' hr, hc, hs,
    hpad, if_neg hnlt2]

theorem recSimple_len : recSimple.length = 80 := by decide

theorem recBitpix8_len : recBitpix8.length = 80 := by decide

theorem recNaxisIs1_len : recNaxisIs1.length = 80 := by decide

theorem recNaxis1Is3_len : recNaxis1Is3.length = 80 := by decide

theorem recEnd_len : recEnd.length = 80 := by decide

theorem pad2480_len : pad2480.length = 2480 := by
  rw [pad2480, List.length_replicate]

theorem tok_recSimple : tokenizeRecord recSimple = .ok .Simple := by decide

theorem tok_recBitpix8 : tokenizeRecord recBitpix8 = .ok (.Bitpix .U8) := by decide

theorem tok_recNaxisIs1 : tokenizeRecord recNaxisIs1 = .ok (.Naxis 1) := by decide

theorem tok_recNaxis1Is3 : tokenizeRecord recNaxis1Is3 = .ok (.NaxisSize 1 3) := by decide

theorem tok_recEnd : tokenizeRecord recEnd = .ok .End := by decide

theorem new_bufOk : PrimaryHeader.new bufOk = .ok ([10, 20, 30], hdrOk) := by
  have hlen : bufOk.length = 2883 := by
    simp [bufOk, recSimple_len, recBitpix8_len, recNaxisIs1_len, recNaxis1Is3_len,
      recEnd_len, pad2480_len]
  rw [PrimaryHeader.new, hlen, bufOk]
  rw [assembleBytes_step 2883 2882 initState stA 0 recSimple _ .Simple (by norm_num)
    recSimple_len tok_recSimple (by decide)]
  rw [assembleBytes_step 2882 2881 stA stB 80 recBitpix8 _ (.Bitpix .U8) (by norm_num)
    recBitpix8_len tok_recBitpix8 (by decide)]
  rw [assembleBytes_step 2881 2880 stB stC 160 recNaxisIs1 _ (.Naxis 1) (by norm_num)
    recNaxisIs1_len tok_recNaxisIs1 (by decide)]
  rw [assembleBytes_step 2880 2879 stC stD 240 recNaxis1Is3 _ (.NaxisSize 1 3) (by norm_num)
    recNaxis1Is3_len tok_recNaxis1Is3 (by decide)]
  rw [assembleBytes_endStep 2879 2878 stD 320 2480 recEnd _ hdrOk (by norm_num)
    recEnd_len tok_recEnd (by decide) (by norm_num) (by simp [pad2480_len])]
  rw [List.drop_left' pad2480_len]

theorem fits_bufOk : Fits.from_bytes_slice bufOk =
    some (.ok { header := hdrOk, data := .U8 [10, 20, 30] }) := by
  rw [Fits.from_bytes_slice, new_bufOk]
  decide

theorem recNaxisIs2_len : recNaxisIs2.length = 80 := by decide

theorem recNaxis1Big_len : recNaxis1Big.length = 80 := by decide

theorem recNaxis2Big_len : recNaxis2Big.length = 80 := by decide

theorem pad2400_len : pad2400.length = 2400 := by
  rw [pad2400, List.length_replicate]

theorem tok_recNaxisIs2 : tokenizeRecord recNaxisIs2 = .ok (.Naxis 2) := by decide

theorem tok_recNaxis1Big :
    tokenizeRecord recNaxis1Big = .ok (.NaxisSize 1 4294967296) := by decide

theorem tok_recNaxis2Big :
    tokenizeRecord recNaxis2Big = .ok (.NaxisSize 2 4294967296) := by decide

theorem new_bufOverflow : PrimaryHeader.new bufOverflow = .ok ([], hdrOverflow) := by
  have hlen : bufOverflow.length = 2880 := by
    simp [bufOverflow, recSimple_len, recBitpix8_len, recNaxisIs2_len, recNaxis1Big_len,
      recNaxis2Big_len, recEnd_len, pad2400_len]
  rw [PrimaryHeader.new, hlen, bufOverflow]
  rw [assembleBytes_step 2880 2879 initState stA 0 recSimple _ .Simple (by norm_num)
    recSimple_len tok_recSimple (by decide)]
  rw [assembleBytes_step 2879 2878 stA stB 80 recBitpix8 _ (.Bitpix .U8) (by norm_num)
    recBitpix8_len tok_recBitpix8 (by decide)]
  rw [assembleBytes_step 2878 2877 stB stC2 160 recNaxisIs2 _ (.Naxis 2) (by norm_num)
    recNaxisIs2_len tok_recNaxisIs2 (by decide)]
  rw [assembleBytes_step 2877 2876 stC2 stD2 240 recNaxis1Big _ (.NaxisSize 1 4294967296)
    (by norm_num) recNaxis1Big_len tok_recNaxis1Big (by decide)]
  rw [assembleBytes_step 2876 2875 stD2 stE2 320 recNaxis2Big _ (.NaxisSize 2 4294967296)
    (by norm_num) recNaxis2Big_len tok_recNaxis2Big (by decide)]
  rw [assembleBytes_endStep 2875 2874 stE2 400 2400 recEnd _ hdrOverflow (by norm_num)
    recEnd_len tok_recEnd (by decide) (by norm_num) (by simp [pad2400_len])]
  rw [List.drop_eq_nil_of_le (by rw [pad2400_len] : pad2400.length ≤ 2400)]

/-- The parse of `bufOverflow` succeeds with a wrapped (0) element count and
an empty data unit; no arithmetic-overflow error is raised. -/
theorem fits_bufOverflow : Fits.from_bytes_slice bufOverflow =
    some (.ok { header := hdrOverflow, data := .U8 [] }) := by
  rw [Fits.from_bytes_slice, new_bufOverflow]
  decide

theorem recNaxisIs0_len : recNaxisIs0.length = 80 := by decide

theorem pad2560_len : pad2560.length = 2560 := by
  rw [pad2560, List.length_replicate]

theorem tok_recNaxisIs0 : tokenizeRecord recNaxisIs0 = .ok (.Naxis 0) := by decide

theorem new_bufSpace : PrimaryHeader.new bufSpace = .ok ([32], hdrSpace) := by
  have hlen : bufSpace.length = 2881 := by
    simp [bufSpace, recSimple_len, recBitpix8_len, recNaxisIs0_len, recEnd_len,
      pad2560_len]
  rw [PrimaryHeader.new, hlen, bufSpace]
  rw [assembleBytes_step 2881 2880 initState stA 0 recSimple _ .Simple (by norm_num)
    recSimple_len tok_recSimple (by decide)]
  rw [assembleBytes_step 2880 2879 stA stB 80 recBitpix8 _ (.Bitpix .U8) (by norm_num)
    recBitpix8_len tok_recBitpix8 (by decide)]
  rw [assembleBytes_step 2879 2878 stB stC0 160 recNaxisIs0 _ (.Naxis 0) (by norm_num)
    recNaxisIs0_len tok_recNaxisIs0 (by decide)]
  rw [assembleBytes_endStep 2878 2877 stC0 240 2560 recEnd _ hdrSpace (by norm_num)
    recEnd_len tok_recEnd (by decide) (by norm_num) (by simp [pad2560_len])]
  rw [List.drop_left' pad2560_len]

/-- The code decodes the space byte itself: the data unit contains the
whitespace byte that follows the header block. -/
theorem fits_bufSpace : Fits.from_bytes_slice bufSpace =
    some (.ok { header := hdrSpace, data := .U8 [32] }) := by
  rw [Fits.from_bytes_slice, new_bufSpace]
  decide

/-- Under the spec's reading (whitespace skipped before dispatch), the same
buffer would fail with an incomplete input: the skip consumes the only data
byte. -/
theorem specSkip_bufSpace : fromBytesSliceSpecSkip bufSpace =
    some (.error .Incomplete) := by
  rw [fromBytesSliceSpecSkip, new_bufSpace]
  decide

theorem recNaxis1Is10_len : recNaxis1Is10.length = 80 := by decide

theorem tok_recNaxis1Is10 :
    tokenizeRecord recNaxis1Is10 = .ok (.NaxisSize 1 10) := by decide

theorem new_bufTrunc : PrimaryHeader.new bufTrunc = .ok ([1, 2, 3], hdrTrunc) := by
  have hlen : bufTrunc.length = 2883 := by
    simp [bufTrunc, recSimple_len, recBitpix8_len, recNaxisIs1_len, recNaxis1Is10_len,
      recEnd_len, pad2480_len]
  rw [PrimaryHeader.new, hlen, bufTrunc]
  rw [assembleBytes_step 2883 2882 initState stA 0 recSimple _ .Simple (by norm_num)
    recSimple_len tok_recSimple (by decide)]
  rw [assembleBytes_step 2882 2881 stA stB 80 recBitpix8 _ (.Bitpix .U8) (by norm_num)
    recBitpix8_len tok_recBitpix8 (by decide)]
  rw [assembleBytes_step 2881 2880 stB stC 160 recNaxisIs1 _ (.Naxis 1) (by norm_num)
    recNaxisIs1_len tok_recNaxisIs1 (by decide)]
  rw [assembleBytes_step 2880 2879 stC stD10 240 recNaxis1Is10 _ (.NaxisSize 1 10)
    (by norm_num) recNaxis1Is10_len tok_recNaxis1Is10 (by decide)]
  rw [assembleBytes_endStep 2879 2878 stD10 320 2480 recEnd _ hdrTrunc (by norm_num)
    recEnd_len tok_recEnd (by decide) (by norm_num) (by simp [pad2480_len])]
  rw [List.drop_left' pad2480_len]

/-- Truncated data: the parse fails with the incomplete-input error. -/
theorem fits_bufTrunc : Fits.from_bytes_slice bufTrunc =
    some (.error .Incomplete) := by
  rw [Fits.from_bytes_slice, new_bufTrunc]
  decide

/-! ### General lemmas about the data-unit decoder -/

theorem parseRaw_eq (w n : Nat) (buf : List Nat) :
    parseRaw w buf n =
      if buf.length < (n * w) % USIZE then .error .Incomplete
      else .ok (buf.take ((n * w) % USIZE)) := by
  rw [parseRaw, takeStreaming]
  by_cases hc : buf.length < (n * w) % USIZE
  · simp only [if_pos hc]
  · simp only [if_neg hc]

theorem parseRaw_ok (w n : Nat) (buf : List Nat) (h : (n * w) % USIZE ≤ buf.length) :
    parseRaw w buf n = .ok (buf.take ((n * w) % USIZE)) := by
  rw [parseRaw_eq, if_neg (by omega)]

theorem parseRaw_append (w n : Nat) (rem extra raw : List Nat)
    (h : parseRaw w rem n = .ok raw) : parseRaw w (rem ++ extra) n = .ok raw := by
  rw [parseRaw_eq] at h
  split at h
  · cases h
  · rename_i hlen
    rw [parseRaw_eq, if_neg (by rw [List.length_append]; omega),
      List.take_append_of_le_length (by omega)]
    exact h

theorem foldl_wrap_mul (l : List Nat) (a : Nat) :
    l.foldl (fun total val => (total * val) % USIZE) (a % USIZE) = a * l.prod % USIZE := by
  induction l generalizing a with
  | nil => simp
  | cons v t ih =>
    rw [List.foldl_cons, List.prod_cons]
    have hstep : (a % USIZE * v) % USIZE = (a * v) % USIZE := Nat.mod_mul_mod
    rw [hstep, ih (a * v), Nat.mul_assoc]

theorem numItemsOpt_prod (h : PrimaryHeader) (sizes : List Nat)
    (hs : (List.range h.get_naxis).mapM h.get_axis_size = some sizes) :
    numItemsOpt h = some (sizes.prod % USIZE) := by
  rw [numItemsOpt, hs, Option.map_some']
  congr 1
  have h1 : sizes.foldl (fun total val => (total * val) % USIZE) 1 =
      sizes.foldl (fun total val => (total * val) % USIZE) (1 % USIZE) := by
    norm_num [USIZE]
  rw [h1, foldl_wrap_mul, one_mul]

theorem readChunks_length (w : Nat) (n : Nat) (src : List Nat) :
    (readChunks w n src).length = n := by
  induction n generalizing src with
  | zero => rfl
  | succ m ih => rw [readChunks, List.length_cons, ih]

theorem readChunks_getElem (w : Nat) (n : Nat) (src : List Nat) (i : Nat) (hi : i < n) :
    (readChunks w n src)[i]? = some (beValue ((src.drop (i * w)).take w)) := by
  induction n generalizing src i with
  | zero => omega
  | succ m ih =>
    cases i with
    | zero => rw [readChunks]; simp
    | succ j =>
      rw [readChunks, List.getElem?_cons_succ, ih (src.drop w) j (by omega),
        List.drop_drop]
      congr 3
      ring_nf

theorem readBEInto_take (w n : Nat) (buf : List Nat) (hlen : n * w ≤ buf.length) :
    readBEInto w n (buf.take (n * w)) = some (readChunks w n (buf.take (n * w))) := by
  rw [readBEInto, if_pos (List.length_take_of_le hlen)]

/-- The two facts shared by the five multi-byte decoders: the raw slice is
exactly the first `n * w` bytes and the converter accepts it. -/
theorem multibyte_raw (w n : Nat) (buf : List Nat) (hw : n * w < USIZE)
    (hlen : n * w ≤ buf.length) :
    parseRaw w buf n = .ok (buf.take (n * w)) ∧
      readBEInto w n (buf.take (n * w)) = some (readChunks w n (buf.take (n * w))) := by
  have hnb : (n * w) % USIZE = n * w := Nat.mod_eq_of_lt hw
  exact ⟨by rw [parseRaw_eq, hnb, if_neg (by omega)], readBEInto_take w n buf hlen⟩

theorem dataUnitI16_eq (buf : List Nat) (n : Nat) (hw : n * 2 < USIZE)
    (hlen : n * 2 ≤ buf.length) :
    DataUnitI16.parse buf n =
      some (.ok ((readChunks 2 n (buf.take (n * 2))).map (toSigned 2))) := by
  obtain ⟨h1, h2⟩ := multibyte_raw 2 n buf hw hlen
  simp only [DataUnitI16.parse, h1, h2]

theorem dataUnitI32_eq (buf : List Nat) (n : Nat) (hw : n * 4 < USIZE)
    (hlen : n * 4 ≤ buf.length) :
    DataUnitI32.parse buf n =
      some (.ok ((readChunks 4 n (buf.take (n * 4))).map (toSigned 4))) := by
  obtain ⟨h1, h2⟩ := multibyte_raw 4 n buf hw hlen
  simp only [DataUnitI32.parse, h1, h2]

theorem dataUnitI64_eq (buf : List Nat) (n : Nat) (hw : n * 8 < USIZE)
    (hlen : n * 8 ≤ buf.length) :
    DataUnitI64.parse buf n =
      some (.ok ((readChunks 8 n (buf.take (n * 8))).map (toSigned 8))) := by
  obtain ⟨h1, h2⟩ := multibyte_raw 8 n buf hw hlen
  simp only [DataUnitI64.parse, h1, h2]

theorem dataUnitF32_eq (buf : List Nat) (n : Nat) (hw : n * 4 < USIZE)
    (hlen : n * 4 ≤ buf.length) :
    DataUnitF32.parse buf n = some (.ok (readChunks 4 n (buf.take (n * 4)))) := by
  obtain ⟨h1, h2⟩ := multibyte_raw 4 n buf hw hlen
  simp only [DataUnitF32.parse, h1, h2]

theorem dataUnitF64_eq (buf : List Nat) (n : Nat) (hw : n * 8 < USIZE)
    (hlen : n * 8 ≤ buf.length) :
    DataUnitF64.parse buf n = some (.ok (readChunks 8 n (buf.take (n * 8)))) := by
  obtain ⟨h1, h2⟩ := multibyte_raw 8 n buf hw hlen
  simp only [DataUnitF64.parse, h1, h2]

/-- C4: for every buffer and element count (a usize) on which the
unsigned-8-bit decode succeeds, the resulting data is exactly the first
`n` bytes of the input buffer: byte `i` of the result equals byte `i` of
the buffer, in order (the zero-copy view exposes the slice unchanged). -/
theorem C4_u8_zero_copy (buf : List Nat) (n : Nat) (d : List Nat) (hn : n < USIZE)
    (hp : DataUnitU8.parse buf n = some (.ok d)) :
    d = buf.take n ∧ d.length = n ∧ (∀ i, i < n → d[i]? = buf[i]?) := by
  have hnb : (n * 1) % USIZE = n := by rw [Nat.mul_one, Nat.mod_eq_of_lt hn]
  rw [DataUnitU8.parse, parseRaw_eq, hnb] at hp
  by_cases hc : buf.length < n
  · rw [if_pos hc] at hp
    exact absurd hp (by simp)
  · rw [if_neg hc] at hp
    simp only [Option.some.injEq, Except.ok.injEq] at hp
    subst hp
    refine ⟨rfl, List.length_take_of_le (by omega), fun i hi => ?_⟩
    exact List.getElem?_take_of_lt hi

/-- C4 witness: a concrete successful U8 decode. -/
theorem C4_u8_zero_copy_witness :
    DataUnitU8.parse [5, 6, 7, 8] 3 = some (.ok [5, 6, 7]) ∧
      ([5, 6, 7] : List Nat) = [5, 6, 7, 8].take 3 := by
  refine ⟨by decide, ?_⟩
  exact (C4_u8_zero_copy [5, 6, 7, 8] 3 [5, 6, 7] (by norm_num [USIZE]) (by decide)).1

/-- C5: for each of the five multi-byte type codes (widths 2, 4, 8, 4, 8)
and every buffer holding at least `n * w` bytes (with `n * w` in usize
range), decoding yields exactly `n` values, the `i`-th being the big-endian
interpretation of the `i`-th `w`-byte chunk of the consumed slice, in order
(two's complement for the integer types, IEEE bit patterns for the float
types). -/
theorem C5_bigendian_decode :
    (∀ buf n, n * 2 < USIZE → n * 2 ≤ List.length buf →
      ∃ vs, DataUnitI16.parse buf n = some (.ok vs) ∧ vs.length = n ∧
        ∀ i, i < n → vs[i]? =
          some (toSigned 2 (beValue (((buf.take (n * 2)).drop (i * 2)).take 2)))) ∧
    (∀ buf n, n * 4 < USIZE → n * 4 ≤ List.length buf →
      ∃ vs, DataUnitI32.parse buf n = some (.ok vs) ∧ vs.length = n ∧
        ∀ i, i < n → vs[i]? =
          some (toSigned 4 (beValue (((buf.take (n * 4)).drop (i * 4)).take 4)))) ∧
    (∀ buf n, n * 8 < USIZE → n * 8 ≤ List.length buf →
      ∃ vs, DataUnitI64.parse buf n = some (.ok vs) ∧ vs.length = n ∧
        ∀ i, i < n → vs[i]? =
          some (toSigned 8 (beValue (((buf.take (n * 8)).drop (i * 8)).take 8)))) ∧
    (∀ buf n, n * 4 < USIZE → n * 4 ≤ List.length buf →
      ∃ vs, DataUnitF32.parse buf n = some (.ok vs) ∧ vs.length = n ∧
        ∀ i, i < n → vs[i]? =
          some (beValue (((buf.take (n * 4)).drop (i * 4)).take 4))) ∧
    (∀ buf n, n * 8 < USIZE → n * 8 ≤ List.length buf →
      ∃ vs, DataUnitF64.parse buf n = some (.ok vs) ∧ vs.length = n ∧
        ∀ i, i < n → vs[i]? =
          some (beValue (((buf.take (n * 8)).drop (i * 8)).take 8))) := by
  refine ⟨fun buf n hw hlen => ?_, fun buf n hw hlen => ?_, fun buf n hw hlen => ?_,
    fun buf n hw hlen => ?_, fun buf n hw hlen => ?_⟩
  · refine ⟨_, dataUnitI16_eq buf n hw hlen,
      by rw [List.length_map, readChunks_length], fun i hi => ?_⟩
    rw [List.getElem?_map, readChunks_getElem 2 n _ i hi, Option.map_some']
  · refine ⟨_, dataUnitI32_eq buf n hw hlen,
      by rw [List.length_map, readChunks_length], fun i hi => ?_⟩
    rw [List.getElem?_map, readChunks_getElem 4 n _ i hi, Option.map_some']
  · refine ⟨_, dataUnitI64_eq buf n hw hlen,
      by rw [List.length_map, readChunks_length], fun i hi => ?_⟩
    rw [List.getElem?_map, readChunks_getElem 8 n _ i hi, Option.map_some']
  · exact ⟨_, dataUnitF32_eq buf n hw hlen, readChunks_length 4 n _,
      fun i hi => readChunks_getElem 4 n _ i hi⟩
  · exact ⟨_, dataUnitF64_eq buf n hw hlen, readChunks_length 8 n _,
      fun i hi => readChunks_getElem 8 n _ i hi⟩

/-- C5 witness: a concrete 2-element signed-16-bit decode. -/
theorem C5_bigendian_decode_witness :
    (2 * 2 < USIZE ∧ 2 * 2 ≤ ([1, 2, 255, 254] : List Nat).length) ∧
      (∃ vs, DataUnitI16.parse [1, 2, 255, 254] 2 = some (.ok vs) ∧ vs.length = 2 ∧
        ∀ i, i < 2 → vs[i]? =
          some (toSigned 2 (beValue (((([1, 2, 255, 254] : List Nat).take (2 * 2)).drop
            (i * 2)).take 2)))) := by
  refine ⟨⟨by norm_num [USIZE], by decide⟩, ?_⟩
  exact C5_bigendian_decode.1 [1, 2, 255, 254] 2 (by norm_num [USIZE]) (by decide)

/-- C9: for each of the five multi-byte type codes, when `n * w` does not
overflow usize and the buffer holds at least `n * w` bytes, the decode never
panics: the raw slice handed to the big-endian converter has length exactly
`n * w` (the converter's exact-length requirement) and the decode returns
`some` with a vector of length exactly `n`. -/
theorem C9_decode_no_panic :
    (∀ buf n, n * 2 < USIZE → n * 2 ≤ List.length buf →
      parseRaw 2 buf n = .ok (buf.take (n * 2)) ∧ (buf.take (n * 2)).length = n * 2 ∧
      ∃ vs, DataUnitI16.parse buf n = some (.ok vs) ∧ vs.length = n) ∧
    (∀ buf n, n * 4 < USIZE → n * 4 ≤ List.length buf →
      parseRaw 4 buf n = .ok (buf.take (n * 4)) ∧ (buf.take (n * 4)).length = n * 4 ∧
      ∃ vs, DataUnitI32.parse buf n = some (.ok vs) ∧ vs.length = n) ∧
    (∀ buf n, n * 8 < USIZE → n * 8 ≤ List.length buf →
      parseRaw 8 buf n = .ok (buf.take (n * 8)) ∧ (buf.take (n * 8)).length = n * 8 ∧
      ∃ vs, DataUnitI64.parse buf n = some (.ok vs) ∧ vs.length = n) ∧
    (∀ buf n, n * 4 < USIZE → n * 4 ≤ List.length buf →
      parseRaw 4 buf n = .ok (buf.take (n * 4)) ∧ (buf.take (n * 4)).length = n * 4 ∧
      ∃ vs, DataUnitF32.parse buf n = some (.ok vs) ∧ vs.length = n) ∧
    (∀ buf n, n * 8 < USIZE → n * 8 ≤ List.length buf →
      parseRaw 8 buf n = .ok (buf.take (n * 8)) ∧ (buf.take (n * 8)).length = n * 8 ∧
      ∃ vs, DataUnitF64.parse buf n = some (.ok vs) ∧ vs.length = n) := by
  refine ⟨fun buf n hw hlen => ?_, fun buf n hw hlen => ?_, fun buf n hw hlen => ?_,
    fun buf n hw hlen => ?_, fun buf n hw hlen => ?_⟩
  · exact ⟨(multibyte_raw 2 n buf hw hlen).1, List.length_take_of_le hlen,
      _, dataUnitI16_eq buf n hw hlen, by rw [List.length_map, readChunks_length]⟩
  · exact ⟨(multibyte_raw 4 n buf hw hlen).1, List.length_take_of_le hlen,
      _, dataUnitI32_eq buf n hw hlen, by rw [List.length_map, readChunks_length]⟩
  · exact ⟨(multibyte_raw 8 n buf hw hlen).1, List.length_take_of_le hlen,
      _, dataUnitI64_eq buf n hw hlen, by rw [List.length_map, readChunks_length]⟩
  · exact ⟨(multibyte_raw 4 n buf hw hlen).1, List.length_take_of_le hlen,
      _, dataUnitF32_eq buf n hw hlen, readChunks_length 4 n _⟩
  · exact ⟨(multibyte_raw 8 n buf hw hlen).1, List.length_take_of_le hlen,
      _, dataUnitF64_eq buf n hw hlen, readChunks_length 8 n _⟩

/-- C9 witness: a concrete 1-element 64-bit decode. -/
theorem C9_decode_no_panic_witness :
    (1 * 8 < USIZE ∧ 1 * 8 ≤ ([1, 2, 3, 4, 5, 6, 7, 8] : List Nat).length) ∧
      (parseRaw 8 [1, 2, 3, 4, 5, 6, 7, 8] 1 =
          .ok (([1, 2, 3, 4, 5, 6, 7, 8] : List Nat).take (1 * 8)) ∧
        (([1, 2, 3, 4, 5, 6, 7, 8] : List Nat).take (1 * 8)).length = 1 * 8 ∧
        ∃ vs, DataUnitI64.parse [1, 2, 3, 4, 5, 6, 7, 8] 1 = some (.ok vs) ∧
          vs.length = 1) := by
  refine ⟨⟨by norm_num [USIZE], by decide⟩, ?_⟩
  exact C9_decode_no_panic.2.2.1 [1, 2, 3, 4, 5, 6, 7, 8] 1 (by norm_num [USIZE]) (by decide)

/-- C1: evaluation of the code at the failing input.  `bufOverflow` is a
validly assembled header whose axis sizes 2^32 x 2^32 have product 2^64,
beyond usize; the fold of `lib.rs` lines 107-112 wraps the product to 0 and
the parse SUCCEEDS (with an empty data unit) instead of failing with an
arithmetic-overflow error.  (A debug build would abort on the overflowing
`total *= val`; no build returns `Error.ArithmeticOverflow`.) -/
theorem C1_overflow_wraps_silently :
    PrimaryHeader.new bufOverflow = .ok ([], hdrOverflow) ∧
      numItemsOpt hdrOverflow = some 0 ∧
      Fits.from_bytes_slice bufOverflow =
        some (.ok { header := hdrOverflow, data := .U8 [] }) :=
  ⟨new_bufOverflow, by decide, fits_bufOverflow⟩

/-- C3 counterexample: on the validly assembled header of `bufOverflow`
(axis sizes 2^32 and 2^32) the resolved element count is 0, not the product
2^64: the fold wraps modulo usize. -/
theorem C3_count_not_product :
    PrimaryHeader.new bufOverflow = .ok ([], hdrOverflow) ∧
      numItemsOpt hdrOverflow = some 0 ∧
      (0 : Nat) ≠ 4294967296 * 4294967296 :=
  ⟨new_bufOverflow, by decide, by norm_num⟩

/-- C3 (amended): the resolved element count equals the product of the axis
sizes reduced modulo 2^64 (usize), the empty product giving 1, and the
decoder consumes exactly (element count x width) modulo 2^64 bytes from the
data block; when these products are within usize range they coincide with
the exact product and byte count of the claim. -/
theorem C3_count_and_consumption :
    (∀ h sizes, (List.range h.get_naxis).mapM h.get_axis_size = some sizes →
      numItemsOpt h = some (sizes.prod % USIZE)) ∧
    (∀ w n buf, (n * w) % USIZE ≤ List.length buf →
      parseRaw w buf n = .ok (buf.take ((n * w) % USIZE)) ∧
      (buf.take ((n * w) % USIZE)).length = (n * w) % USIZE) := by
  refine ⟨numItemsOpt_prod, fun w n buf hlen => ?_⟩
  exact ⟨parseRaw_ok w n buf hlen, List.length_take_of_le hlen⟩

/-- C3 witness: the NAXIS = 1, NAXIS1 = 3 header resolves to 3 = 3 % 2^64
elements, and the U8 decoder consumes exactly 3 bytes. -/
theorem C3_count_and_consumption_witness :
    ((List.range hdrOk.get_naxis).mapM hdrOk.get_axis_size = some [3]) ∧
      numItemsOpt hdrOk = some (([3] : List Nat).prod % USIZE) ∧
      parseRaw 1 [10, 20, 30] 3 = .ok (([10, 20, 30] : List Nat).take ((3 * 1) % USIZE)) := by
  refine ⟨by decide, C3_count_and_consumption.1 hdrOk [3] (by decide), ?_⟩
  exact (C3_count_and_consumption.2 1 3 [10, 20, 30] (by decide)).1

/-- C2 counterexample: on `bufSpace` (a valid NAXIS = 0, U8 file whose one
data byte is an ASCII space) the code decodes the whitespace byte itself,
while the claimed behaviour — dispatching the decoder on the buffer
positioned after the skipped whitespace — would fail with an incomplete
input (the skip would consume the only data byte).  The decoder is
therefore NOT dispatched after the skipped whitespace. -/
theorem C2_whitespace_not_skipped :
    Fits.from_bytes_slice bufSpace =
        some (.ok { header := hdrSpace, data := .U8 [32] }) ∧
      fromBytesSliceSpecSkip bufSpace = some (.error .Incomplete) ∧
      Fits.from_bytes_slice bufSpace ≠ fromBytesSliceSpecSkip bufSpace := by
  refine ⟨fits_bufSpace, specSkip_bufSpace, ?_⟩
  rw [fits_bufSpace, specSkip_bufSpace]
  decide

/-- C2 (amended): `from_bytes_slice` runs the Header Assembler, then the
Shape Resolver, then evaluates the whitespace skip but discards its
advanced position, so the Data Unit Decoder is dispatched on the buffer
positioned immediately after the header block (any leading whitespace bytes
are decoded as data, not skipped). -/
theorem C2_pipeline_unadvanced (buf rem : List Nat) (header : PrimaryHeader) (n : Nat)
    (hnew : PrimaryHeader.new buf = .ok (rem, header))
    (hn : numItemsOpt header = some n) :
    Fits.from_bytes_slice buf = dispatchData header rem n := by
  simp only [Fits.from_bytes_slice, hnew, hn, multispace0]

/-- C2 witness: on `bufSpace` the decoder runs on the post-header buffer
`[32]` itself. -/
theorem C2_pipeline_unadvanced_witness :
    (PrimaryHeader.new bufSpace = .ok ([32], hdrSpace) ∧
        numItemsOpt hdrSpace = some 1) ∧
      Fits.from_bytes_slice bufSpace = dispatchData hdrSpace [32] 1 := by
  refine ⟨⟨new_bufSpace, by decide⟩, ?_⟩
  exact C2_pipeline_unadvanced bufSpace [32] hdrSpace 1 new_bufSpace (by decide)

/-- C6: whenever the header parses validly but the remaining buffer is
shorter than the computed data length (element count x width, as the code
computes it), the parse fails with the incomplete-input error, a value
distinct from the malformed-card error. -/
theorem C6_truncated_incomplete (buf rem : List Nat) (h : PrimaryHeader) (n : Nat)
    (hnew : PrimaryHeader.new buf = .ok (rem, h))
    (hn : numItemsOpt h = some n)
    (hshort : rem.length < (n * h.get_bitpix.width) % USIZE) :
    Fits.from_bytes_slice buf = some (.error .Incomplete) ∧
      Error.Incomplete ≠ Error.MalformedCard := by
  refine ⟨?_, by decide⟩
  simp only [Fits.from_bytes_slice, hnew, hn, multispace0]
  rw [dispatchData]
  cases hb : h.get_bitpix <;> rw [hb] at hshort <;>
    simp only [BitpixValue.width] at hshort
  case U8 =>
    simp only [DataUnitU8.parse, parseRaw_eq]
    rw [if_pos hshort]
  case I16 =>
    simp only [DataUnitI16.parse, parseRaw_eq]
    rw [if_pos hshort]
  case I32 =>
    simp only [DataUnitI32.parse, parseRaw_eq]
    rw [if_pos hshort]
  case I64 =>
    simp only [DataUnitI64.parse, parseRaw_eq]
    rw [if_pos hshort]
  case F32 =>
    simp only [DataUnitF32.parse, parseRaw_eq]
    rw [if_pos hshort]
  case F64 =>
    simp only [DataUnitF64.parse, parseRaw_eq]
    rw [if_pos hshort]

/-- C6 witness: `bufTrunc` has a valid header demanding 10 bytes but only 3
data bytes; the parse reports the incomplete input. -/
theorem C6_truncated_incomplete_witness :
    (PrimaryHeader.new bufTrunc = .ok ([1, 2, 3], hdrTrunc) ∧
        numItemsOpt hdrTrunc = some 10 ∧
        ([1, 2, 3] : List Nat).length < (10 * hdrTrunc.get_bitpix.width) % USIZE) ∧
      Fits.from_bytes_slice bufTrunc = some (.error .Incomplete) := by
  refine ⟨⟨new_bufTrunc, by decide, by decide⟩, ?_⟩
  exact (C6_truncated_incomplete bufTrunc [1, 2, 3] hdrTrunc 10 new_bufTrunc
    (by decide) (by decide)).1

theorem stepCard_other (st : AsmState) (kw : List Nat) :
    stepCard st (.Other kw) = .ok (.inl (st.push (.Other kw))) := rfl

/-- Opaque cards are retained and skipped: the state machine's mandatory
fields are unchanged across any run of uninterpreted cards. -/
theorem assembleCards_skipOthers (os : List FITSHeaderKeyword) (st : AsmState)
    (cs : List FITSHeaderKeyword) (ho : ∀ c ∈ os, c.isOther = true) :
    assembleCards st (os ++ cs) =
      assembleCards { st with cards := os.reverse ++ st.cards } cs := by
  induction os generalizing st with
  | nil => simp
  | cons o t ih =>
    have hohd : o.isOther = true := ho o (List.mem_cons_self o t)
    cases o with
    | Other kw =>
      simp only [List.cons_append, assembleCards, stepCard_other, List.append_eq]
      rw [ih _ (fun c hc => ho c (List.mem_cons_of_mem _ hc))]
      congr 1
      simp [AsmState.push, List.append_assoc]
    | Simple => simp [FITSHeaderKeyword.isOther] at hohd
    | Bitpix v => simp [FITSHeaderKeyword.isOther] at hohd
    | Naxis n => simp [FITSHeaderKeyword.isOther] at hohd
    | NaxisSize i s => simp [FITSHeaderKeyword.isOther] at hohd
    | End => simp [FITSHeaderKeyword.isOther] at hohd

/-- C7: for every card sequence that declares axis count 2 but contains
only the one axis-size card NAXIS1 (with any size, any type code, and any
opaque cards interleaved anywhere) before the end-of-header marker, the
assembler fails with the missing-mandatory-card error. -/
theorem C7_missing_axis_card (o1 o2 o3 o4 o5 rest : List FITSHeaderKeyword)
    (b : BitpixValue) (s : Nat)
    (h1 : ∀ c ∈ o1, c.isOther = true) (h2 : ∀ c ∈ o2, c.isOther = true)
    (h3 : ∀ c ∈ o3, c.isOther = true) (h4 : ∀ c ∈ o4, c.isOther = true)
    (h5 : ∀ c ∈ o5, c.isOther = true) :
    assembleCards initState
      (o1 ++ .Simple :: (o2 ++ .Bitpix b :: (o3 ++ .Naxis 2 :: (o4 ++
        .NaxisSize 1 s :: (o5 ++ .End :: rest))))) =
      .error .MissingMandatoryCard := by
  rw [assembleCards_skipOthers o1 _ _ h1]
  simp only [assembleCards, stepCard, initState, AsmState.push]
  rw [assembleCards_skipOthers o2 _ _ h2]
  simp only [assembleCards, stepCard, AsmState.push, Option.isSome_none,
    Bool.false_eq_true, if_false, if_neg, reduceCtorEq, reduceIte]
  rw [assembleCards_skipOthers o3 _ _ h3]
  simp only [assembleCards, stepCard, AsmState.push, Option.isSome_none,
    reduceCtorEq, reduceIte]
  rw [assembleCards_skipOthers o4 _ _ h4]
  simp only [assembleCards, stepCard, AsmState.push]
  rw [if_neg (by omega : ¬ ((1 : Nat) < 1 ∨ (2 : Nat) < 1))]
  simp only [List.find?, Option.isSome_none, Bool.false_eq_true, reduceIte]
  rw [assembleCards_skipOthers o5 _ _ h5]
  simp [assembleCards, stepCard, AsmState.push, axesComplete, List.range',
    List.find?]

/-- C7 witness: a concrete instance with one opaque card interleaved. -/
theorem C7_missing_axis_card_witness :
    (∀ c ∈ [FITSHeaderKeyword.Other (strBytes (r"COMMENT"))], c.isOther = true) ∧
      assembleCards initState
        ([] ++ .Simple :: ([FITSHeaderKeyword.Other (strBytes (r"COMMENT"))] ++
          .Bitpix .F32 :: ([] ++ .Naxis 2 :: ([] ++
          .NaxisSize 1 64 :: ([] ++ .End :: []))))) =
        .error .MissingMandatoryCard := by
  refine ⟨by decide, ?_⟩
  exact C7_missing_axis_card [] [FITSHeaderKeyword.Other (strBytes (r"COMMENT"))]
    [] [] [] [] .F32 64 (by decide) (by decide) (by decide) (by decide) (by decide)

/-- A successful assembler run is unaffected by appending bytes after the
consumed region (and by giving it at least as much fuel). -/
theorem assembleBytes_append (fuel : Nat) :
    ∀ fuel' st pos buf extra rem h, fuel ≤ fuel' →
      assembleBytes fuel st pos buf = .ok (rem, h) →
      assembleBytes fuel' st pos (buf ++ extra) = .ok (rem ++ extra, h) := by
  induction fuel with
  | zero =>
    intro fuel' st pos buf extra rem h _ hok
    exact absurd hok (by simp [assembleBytes])
  | succ f ih =>
    intro fuel' st pos buf extra rem h hff hok
    obtain ⟨f2, rfl⟩ : ∃ f2, fuel' = f2 + 1 := ⟨fuel' - 1, by omega⟩
    rw [assembleBytes] at hok
    by_cases hl : buf.length < 80
    · rw [if_pos hl] at hok
      cases hok
    · rw [if_neg hl] at hok
      have hl2 : ¬ (buf ++ extra).length < 80 := by rw [List.length_append]; omega
      rw [assembleBytes, if_neg hl2,
        List.take_append_of_le_length (by omega : 80 ≤ buf.length),
        List.drop_append_of_le_length (by omega : 80 ≤ buf.length)]
      cases htok : tokenizeRecord (buf.take 80) with
      | error e => simp only [htok, reduceCtorEq] at hok
      | ok c =>
        simp only [htok] at hok ⊢
        cases hstep : stepCard st c with
        | error e => simp only [hstep, reduceCtorEq] at hok
        | ok v =>
          simp only [hstep] at hok ⊢
          cases v with
          | inl st' =>
            exact ih f2 st' (pos + 80) (buf.drop 80) extra rem h (by omega) hok
          | inr h2 =>
            have hok2 :
                (if (List.drop 80 buf).length < (2880 - (pos + 80) % 2880) % 2880 then
                    (Except.error Error.Incomplete : Except Error (List Nat × PrimaryHeader))
                  else
                    Except.ok
                      (List.drop ((2880 - (pos + 80) % 2880) % 2880) (List.drop 80 buf), h2)) =
                  Except.ok (rem, h) := hok
            by_cases hpad : (List.drop 80 buf).length < (2880 - (pos + 80) % 2880) % 2880
            · rw [if_pos hpad] at hok2
              cases hok2
            · rw [if_neg hpad] at hok2
              have hplen : ¬ (List.drop 80 buf ++ extra).length <
                  (2880 - (pos + 80) % 2880) % 2880 := by
                rw [List.length_append]; omega
              show (if (List.drop 80 buf ++ extra).length <
                    (2880 - (pos + 80) % 2880) % 2880 then
                  (Except.error Error.Incomplete : Except Error (List Nat × PrimaryHeader))
                else
                  Except.ok (List.drop ((2880 - (pos + 80) % 2880) % 2880)
                    (List.drop 80 buf ++ extra), h2)) = Except.ok (rem ++ extra, h)
              rw [if_neg hplen, List.drop_append_of_le_length (by omega)]
              simp only [Except.ok.injEq, Prod.mk.injEq] at hok2
              obtain ⟨h3, h4⟩ := hok2
              rw [h3, h4]

/-- A successful header parse is unaffected by appending bytes after the
data block. -/
theorem primaryHeaderNew_append (buf extra rem : List Nat) (h : PrimaryHeader)
    (hok : PrimaryHeader.new buf = .ok (rem, h)) :
    PrimaryHeader.new (buf ++ extra) = .ok (rem ++ extra, h) := by
  rw [PrimaryHeader.new] at hok ⊢
  rw [List.length_append]
  exact assembleBytes_append buf.length (buf.length + extra.length) initState 0 buf
    extra rem h (by omega) hok

/-- A successful data-unit dispatch is unaffected by appending bytes after
the consumed slice. -/
theorem dispatchData_append (header : PrimaryHeader) (rem extra : List Nat)
    (n : Nat) (f : Fits) (hd : dispatchData header rem n = some (.ok f)) :
    dispatchData header (rem ++ extra) n = some (.ok f) := by
  rw [dispatchData] at hd ⊢
  cases hb : header.get_bitpix <;> rw [hb] at hd
  case U8 =>
    rw [DataUnitU8.parse] at hd ⊢
    cases hraw : parseRaw 1 rem n with
    | error e => rw [hraw] at hd; cases hd
    | ok raw => rw [hraw] at hd; rw [parseRaw_append 1 n rem extra raw hraw]; exact hd
  case I16 =>
    rw [DataUnitI16.parse] at hd ⊢
    cases hraw : parseRaw 2 rem n with
    | error e => rw [hraw] at hd; cases hd
    | ok raw => rw [hraw] at hd; rw [parseRaw_append 2 n rem extra raw hraw]; exact hd
  case I32 =>
    rw [DataUnitI32.parse] at hd ⊢
    cases hraw : parseRaw 4 rem n with
    | error e => rw [hraw] at hd; cases hd
    | ok raw => rw [hraw] at hd; rw [parseRaw_append 4 n rem extra raw hraw]; exact hd
  case I64 =>
    rw [DataUnitI64.parse] at hd ⊢
    cases hraw : parseRaw 8 rem n with
    | error e => rw [hraw] at hd; cases hd
    | ok raw => rw [hraw] at hd; rw [parseRaw_append 8 n rem extra raw hraw]; exact hd
  case F32 =>
    rw [DataUnitF32.parse] at hd ⊢
    cases hraw : parseRaw 4 rem n with
    | error e => rw [hraw] at hd; cases hd
    | ok raw => rw [hraw] at hd; rw [parseRaw_append 4 n rem extra raw hraw]; exact hd
  case F64 =>
    rw [DataUnitF64.parse] at hd ⊢
    cases hraw : parseRaw 8 rem n with
    | error e => rw [hraw] at hd; cases hd
    | ok raw => rw [hraw] at hd; rw [parseRaw_append 8 n rem extra raw hraw]; exact hd

/-- C8: if `from_bytes_slice` succeeds on a buffer, it succeeds on the
buffer extended with arbitrary extra bytes, returning the same header and
the same data (trailing bytes beyond the declared data length are
ignored). -/
theorem C8_trailing_bytes_ignored (buf extra : List Nat) (f : Fits)
    (hok : Fits.from_bytes_slice buf = some (.ok f)) :
    Fits.from_bytes_slice (buf ++ extra) = some (.ok f) := by
  rw [Fits.from_bytes_slice] at hok ⊢
  cases hnew : PrimaryHeader.new buf with
  | error e =>
    rw [hnew] at hok
    cases hok
  | ok p =>
    obtain ⟨rem, header⟩ := p
    rw [hnew] at hok
    rw [primaryHeaderNew_append buf extra rem header hnew]
    simp only at hok ⊢
    cases hn : numItemsOpt header with
    | none =>
      rw [hn] at hok
      exact Option.noConfusion hok
    | some n =>
      rw [hn] at hok
      exact dispatchData_append header rem extra n f hok

/-- C8 witness: appending two junk bytes to the valid `bufOk` leaves the
parse result unchanged. -/
theorem C8_trailing_bytes_ignored_witness :
    Fits.from_bytes_slice bufOk =
        some (.ok { header := hdrOk, data := .U8 [10, 20, 30] }) ∧
      Fits.from_bytes_slice (bufOk ++ [7, 7]) =
        some (.ok { header := hdrOk, data := .U8 [10, 20, 30] }) :=
  ⟨fits_bufOk, C8_trailing_bytes_ignored bufOk [7, 7] _ fits_bufOk⟩

/-- A header is only ever emitted by the end-of-header transition, whose
guard checks that every axis index in `1..naxis` has a collected size. -/
theorem stepCard_inr (st : AsmState) (c : FITSHeaderKeyword) (h : PrimaryHeader)
    (hs : stepCard st c = .ok (.inr h)) :
    axesComplete h.naxis h.sizes = true := by
  cases c with
  | Simple => simp [stepCard] at hs
  | Other kw => simp [stepCard] at hs
  | Bitpix v =>
    simp only [stepCard] at hs
    split at hs
    all_goals try split at hs
    all_goals simp_all
  | Naxis n =>
    simp only [stepCard] at hs
    split at hs
    all_goals try split at hs
    all_goals simp_all
  | NaxisSize idx size =>
    simp only [stepCard] at hs
    split at hs
    all_goals try split at hs
    all_goals try split at hs
    all_goals simp_all
  | End =>
    simp only [stepCard] at hs
    split at hs
    · split at hs
      · rename_i hcond
        simp only [Except.ok.injEq, Sum.inr.injEq] at hs
        subst hs
        exact hcond.2
      · exact absurd hs (by simp)
    · exact absurd hs (by simp)

/-- Any header returned by the byte-level assembler has a complete set of
axis-size cards. -/
theorem assembleBytes_header_complete (fuel : Nat) :
    ∀ st pos buf rem h, assembleBytes fuel st pos buf = .ok (rem, h) →
      axesComplete h.naxis h.sizes = true := by
  induction fuel with
  | zero =>
    intro st pos buf rem h hok
    exact absurd hok (by simp [assembleBytes])
  | succ f ih =>
    intro st pos buf rem h hok
    rw [assembleBytes] at hok
    by_cases hl : buf.length < 80
    · rw [if_pos hl] at hok
      cases hok
    · rw [if_neg hl] at hok
      cases htok : tokenizeRecord (buf.take 80) with
      | error e => simp only [htok, reduceCtorEq] at hok
      | ok c =>
        simp only [htok] at hok
        cases hstep : stepCard st c with
        | error e => simp only [hstep, reduceCtorEq] at hok
        | ok v =>
          simp only [hstep] at hok
          cases v with
          | inl st' => exact ih st' (pos + 80) (buf.drop 80) rem h hok
          | inr h2 =>
            have hok2 :
                (if (List.drop 80 buf).length < (2880 - (pos + 80) % 2880) % 2880 then
                    (Except.error Error.Incomplete : Except Error (List Nat × PrimaryHeader))
                  else
                    Except.ok
                      (List.drop ((2880 - (pos + 80) % 2880) % 2880) (List.drop 80 buf), h2)) =
                  Except.ok (rem, h) := hok
            by_cases hpad : (List.drop 80 buf).length < (2880 - (pos + 80) % 2880) % 2880
            · rw [if_pos hpad] at hok2
              cases hok2
            · rw [if_neg hpad] at hok2
              simp only [Except.ok.injEq, Prod.mk.injEq] at hok2
              obtain ⟨h3, h4⟩ := hok2
              subst h4
              exact stepCard_inr st c h2 hstep

theorem mapM_isSome (l : List Nat) (f : Nat → Option Nat)
    (hall : ∀ a ∈ l, (f a).isSome = true) : (l.mapM f).isSome = true := by
  induction l with
  | nil => rfl
  | cons a t ih =>
    rw [List.mapM_cons]
    obtain ⟨b, hb⟩ := Option.isSome_iff_exists.mp (hall a (List.mem_cons_self a t))
    obtain ⟨bs, hbs⟩ := Option.isSome_iff_exists.mp
      (ih (fun x hx => hall x (List.mem_cons_of_mem _ hx)))
    rw [hb, hbs]
    rfl

/-- C10: for every header accepted by the Header Assembler, the per-axis
size accessor returns `some` for every index in `0..axis count` iterated by
the top-level parser, so the `unwrap` in the element-count fold never sees
`None` (and the fold itself, `numItemsOpt`, never signals a panic). -/
theorem C10_axis_accessor_total (buf rem : List Nat) (h : PrimaryHeader)
    (hok : PrimaryHeader.new buf = .ok (rem, h)) :
    (∀ idx, idx < h.get_naxis → (h.get_axis_size idx).isSome = true) ∧
      numItemsOpt h ≠ none := by
  have hcomp : axesComplete h.naxis h.sizes = true :=
    assembleBytes_header_complete buf.length initState 0 buf rem h hok
  have hacc : ∀ idx, idx < h.get_naxis → (h.get_axis_size idx).isSome = true := by
    intro idx hidx
    rw [axesComplete, List.all_eq_true] at hcomp
    have hmem : idx + 1 ∈ List.range' 1 h.naxis := by
      rw [List.mem_range'_1]
      exact ⟨by omega, by rw [PrimaryHeader.get_naxis] at hidx; omega⟩
    have hfound := hcomp (idx + 1) hmem
    rw [PrimaryHeader.get_axis_size, Option.isSome_map']
    exact hfound
  refine ⟨hacc, ?_⟩
  have hm : ((List.range h.get_naxis).mapM h.get_axis_size).isSome = true := by
    apply mapM_isSome
    intro a ha
    exact hacc a (List.mem_range.mp ha)
  intro hcontra
  rw [numItemsOpt, Option.map_eq_none'] at hcontra
  rw [hcontra] at hm
  cases hm

/-- C10 witness: on the valid `bufOk` every axis accessor in `0..naxis`
returns `some` and the fold is defined. -/
theorem C10_axis_accessor_total_witness :
    PrimaryHeader.new bufOk = .ok ([10, 20, 30], hdrOk) ∧
      (∀ idx, idx < hdrOk.get_naxis → (hdrOk.get_axis_size idx).isSome = true) ∧
      numItemsOpt hdrOk ≠ none := by
  refine ⟨new_bufOk, ?_, ?_⟩
  · exact (C10_axis_accessor_total bufOk [10, 20, 30] hdrOk new_bufOk).1
  · exact (C10_axis_accessor_total bufOk [10, 20, 30] hdrOk new_bufOk).2

end Fitsrs
